import Mathlib

/-!
Verification of the multiagent-explore two-robot exploration system.

The definitions below are a shallow embedding of the Rust sources:
`types.rs`, `constants.rs`, `robot_node/wall_following.rs`,
`robot_node/boundary_analysis.rs`, `robot_node/phases/boundary_scouting.rs`,
`robot_node/phases/wall_find.rs`, `robot_node/mod.rs`, `robot_node.rs`
(the legacy monolithic robot node) and `map_loader.rs`.

Machine integers are modelled by `Int`/`Nat` (no overflow is reachable for
the quantities involved); the `f64` orientation, which the program keeps
cardinal at all times and only inspects through `get_direction_vector` /
`orientation_to_step` / `update_orientation`, is modelled by the four-valued
`Orientation` type; `Vec` indexing that may panic is modelled by `Option`.
-/

namespace MultiagentExplore

/-- `CellState` from `types.rs`. -/
inductive CellState where
  | Unexplored
  | Empty
  | Obstacle
deriving DecidableEq, Repr

/-- `RobotPhase` from `types.rs`. -/
inductive RobotPhase where
  | Idle
  | InitialWallFind
  | BoundaryScouting
  | BoundaryAnalysis
  | IslandEscape
  | CentralScan
  | InteriorSweep
deriving DecidableEq, Repr

/-- `BoundaryAnalysisResult` from `types.rs`. -/
inductive BoundaryAnalysisResult where
  | Incomplete
  | Island
  | ExteriorWall
deriving DecidableEq, Repr

/-- `Point` from `types.rs`. -/
structure Point where
  x : Int
  y : Int
deriving DecidableEq, Repr

/-- `GridMap` from `types.rs` (`width`, `height`, row-major `cells`). -/
structure GridMap where
  width : Nat
  height : Nat
  cells : List CellState
deriving DecidableEq, Repr

/-- The four cardinal orientations.  The Rust program stores the orientation
as an `f64` in radians but keeps it cardinal at all times (EAST_RAD = 0,
SOUTH_RAD = pi/2, WEST_RAD = pi, NORTH_RAD = -pi/2) and only inspects it
through the conversion helpers modelled below. -/
inductive Orientation where
  | east
  | south
  | west
  | north
deriving DecidableEq, Repr

/-- `EXPECTED_ROTATION_DIFFERENCE` from `constants.rs`. -/
def EXPECTED_ROTATION_DIFFERENCE : Int := 4

/-- `COMMUNICATION_RANGE` from `constants.rs`. -/
def COMMUNICATION_RANGE : Int := 2

/-- `LEFT_HAND_RULE` from `constants.rs`. -/
def LEFT_HAND_RULE : Int := -1

/-- `RIGHT_HAND_RULE` from `constants.rs`. -/
def RIGHT_HAND_RULE : Int := 1

/-- `BoundaryAnalyzer::analyze_boundary_by_rotation` from
`robot_node/boundary_analysis.rs` (the `println!` calls are ignored). -/
def analyze_boundary_by_rotation (robot0_rotation robot1_rotation : Option Int) :
    BoundaryAnalysisResult :=
  match robot0_rotation, robot1_rotation with
  | some rot0, some rot1 =>
      let rotation_difference := rot0 - rot1
      if rotation_difference = -EXPECTED_ROTATION_DIFFERENCE then
        BoundaryAnalysisResult.ExteriorWall
      else if rotation_difference = EXPECTED_ROTATION_DIFFERENCE then
        BoundaryAnalysisResult.Island
      else
        BoundaryAnalysisResult.Incomplete
  | _, _ => BoundaryAnalysisResult.Incomplete

/-- `WallFollower::get_direction_vector` from `robot_node/wall_following.rs`,
restricted to the four cardinal orientations the program uses
(E = (1,0), S = (0,1), W = (-1,0), N = (0,-1)). -/
def get_direction_vector : Orientation → Int × Int
  | Orientation.east => (1, 0)
  | Orientation.south => (0, 1)
  | Orientation.west => (-1, 0)
  | Orientation.north => (0, -1)

/-- `WallFollower::is_position_valid_and_empty` from
`robot_node/wall_following.rs`: in-bounds and not an obstacle. -/
def is_position_valid_and_empty (pos : Point) (global_map : GridMap) : Bool :=
  if pos.x < 0 || pos.y < 0 ||
      pos.x ≥ (global_map.width : Int) || pos.y ≥ (global_map.height : Int) then
    false
  else
    (global_map.cells.getD (pos.y.toNat * global_map.width + pos.x.toNat)
        CellState.Obstacle) != CellState.Obstacle

/-- The candidate loop shared by the wall-following steps: return the first
offset whose target cell is valid and empty. -/
def try_priorities (current_pos : Point) (global_map : GridMap) :
    List (Int × Int) → Option Point
  | [] => none
  | (dx, dy) :: rest =>
      let next_pos : Point := ⟨current_pos.x + dx, current_pos.y + dy⟩
      if is_position_valid_and_empty next_pos global_map then some next_pos
      else try_priorities current_pos global_map rest

/-- `WallFollower::wall_follow_step` from `robot_node/wall_following.rs`. -/
def wall_follow_step (current_pos : Point) (orientation : Orientation)
    (global_map : GridMap) (tracing_direction : Int) : Option Point :=
  let current_dx := (get_direction_vector orientation).1
  let current_dy := (get_direction_vector orientation).2
  let priorities :=
    if tracing_direction = LEFT_HAND_RULE then
      [(-current_dy, current_dx), (current_dx, current_dy),
       (current_dy, -current_dx), (-current_dx, -current_dy)]
    else
      [(current_dy, -current_dx), (current_dx, current_dy),
       (-current_dy, current_dx), (-current_dx, -current_dy)]
  try_priorities current_pos global_map priorities

/-- `WallFollower::wall_follow_step_first_move` from
`robot_node/wall_following.rs`. -/
def wall_follow_step_first_move (current_pos : Point) (orientation : Orientation)
    (global_map : GridMap) (partner_pos : Point) : Option Point :=
  let current_dx := (get_direction_vector orientation).1
  let current_dy := (get_direction_vector orientation).2
  let to_partner_x := partner_pos.x - current_pos.x
  let to_partner_y := partner_pos.y - current_pos.y
  let cross_product := current_dx * to_partner_y - current_dy * to_partner_x
  let turn_left := cross_product > 0
  let priorities :=
    if turn_left then
      [(current_dy, -current_dx), (current_dx, current_dy),
       (-current_dy, current_dx), (-current_dx, -current_dy)]
    else
      [(-current_dy, current_dx), (current_dx, current_dy),
       (current_dy, -current_dx), (-current_dx, -current_dy)]
  try_priorities current_pos global_map priorities

/-! Specification-side vocabulary used to state the wall-following claims:
bounds test, cell lookup and a `List.find?` over candidate cells. -/

/-- A position is inside the `[0,W) x [0,H)` rectangle of a map. -/
def inBounds (m : GridMap) (p : Point) : Bool :=
  decide (0 ≤ p.x) && decide (p.x < (m.width : Int)) &&
  decide (0 ≤ p.y) && decide (p.y < (m.height : Int))

/-- Row-major cell lookup (out-of-range list indices read as `Obstacle`). -/
def cellAt (m : GridMap) (p : Point) : CellState :=
  m.cells.getD (p.y.toNat * m.width + p.x.toNat) CellState.Obstacle

/-- A candidate cell is usable: in bounds and not an obstacle. -/
def candidateOk (m : GridMap) (p : Point) : Bool :=
  inBounds m p && (cellAt m p != CellState.Obstacle)

/-- Translate a list of relative offsets into absolute candidate cells. -/
def candidates (pos : Point) (offsets : List (Int × Int)) : List Point :=
  offsets.map fun od => ⟨pos.x + od.1, pos.y + od.2⟩

/-! ## Map merging (`RobotNode::merge_map`, identical in `robot_node/mod.rs`
and `robot_node.rs`)

The Rust loop `for (i, &cell) in partner_map.cells.iter().enumerate()
{ if cell != Unexplored { self.state.map.cells[i] = cell; } }` writes into the
receiver's cell vector and panics when a write index is out of range; the
panic is modelled by `none`. -/

/-- The merge loop over the partner's cells, carrying the running index. -/
def mergeCellsAux : List CellState → List CellState → Nat → Option (List CellState)
  | selfC, [], _ => some selfC
  | selfC, c :: rest, i =>
      if c ≠ CellState.Unexplored then
        if i < selfC.length then mergeCellsAux (selfC.set i c) rest (i + 1)
        else none
      else mergeCellsAux selfC rest (i + 1)

/-- `RobotNode::merge_map`: merge the partner's known cells into the
receiver's map (`none` models the out-of-bounds panic). -/
def merge_map (selfM partner_map : GridMap) : Option GridMap :=
  (mergeCellsAux selfM.cells partner_map.cells 0).map
    fun cs => { selfM with cells := cs }

/-! ## Map loading (`map_loader.rs`)

A file is modelled as its list of lines, each line a list of characters
(`BufRead::lines` strips the newlines; an empty file yields no lines;
every accepted character is one-byte ASCII, so the byte length used by the
Rust row check coincides with the character count on every successful load). -/

/-- `PhaseTransition` from `robot_node/phase_trait.rs`. -/
inductive PhaseTransition where
  | Continue
  | Transition (p : RobotPhase)
  | Complete
deriving DecidableEq, Repr

/-- The character loop of `load_map_from_file`: translate characters to cells,
stopping with the invalid-character error on the first bad character. -/
def cellsOfChars : List Char → Except String (List CellState)
  | [] => Except.ok []
  | ch :: rest =>
      if ch = '#' then (cellsOfChars rest).map fun cs => CellState.Obstacle :: cs
      else if ch = '.' then (cellsOfChars rest).map fun cs => CellState.Empty :: cs
      else if ch = ' ' ∨ ch = '?' then
        (cellsOfChars rest).map fun cs => CellState.Unexplored :: cs
      else Except.error ("Invalid map character: " ++ String.mk [ch])

/-- `load_map_from_file` from `map_loader.rs`, on the list of lines read from
the file (I/O errors from opening and reading the file are outside the
model). -/
def load_map_from_file (lines : List (List Char)) : Except String GridMap :=
  if lines.isEmpty then Except.error "Map file is empty"
  else
    let width := (lines.headD []).length
    let height := lines.length
    if ¬ lines.all (fun l => l.length = width) then
      Except.error "Inconsistent line lengths in map file"
    else
      (cellsOfChars lines.join).map fun cells => ⟨width, height, cells⟩

/-- Specification-side character-to-cell table ('#' obstacle, '.' empty,
' ' and '?' unexplored). -/
def charCell (ch : Char) : CellState :=
  if ch = '#' then CellState.Obstacle
  else if ch = '.' then CellState.Empty
  else CellState.Unexplored

/-- The characters the map format accepts. -/
def validMapChar (ch : Char) : Bool :=
  ch = '#' || ch = '.' || ch = ' ' || ch = '?'

/-- Whether a load attempt succeeded. -/
def loadOk : Except String GridMap → Bool
  | Except.ok _ => true
  | Except.error _ => false

/-! ## Sensing and wall finding (`robot_node/mod.rs`,
`robot_node/phases/wall_find.rs`) -/

/-- The `[NORTH, SOUTH, EAST, WEST]` direction vectors from `constants.rs`,
in the order `update_local_map` walks them. -/
def sensing_dirs : List (Int × Int) := [(0, -1), (0, 1), (1, 0), (-1, 0)]

/-- One write of the sensing loop of `RobotNode::update_local_map`
(`robot_node/mod.rs`): copy the ground-truth cell at `p` into the local
cells, guarded by the two index bounds checks of the source.  A negative
coordinate wraps to an astronomically large `usize` in the Rust cast and
therefore fails the bounds check; this is modelled by the explicit
non-negativity guard. -/
def sense_write (local_width : Nat) (g : GridMap) (cells : List CellState)
    (p : Point) : List CellState :=
  if 0 ≤ p.x ∧ 0 ≤ p.y then
    let global_idx := p.y.toNat * g.width + p.x.toNat
    let local_idx := p.y.toNat * local_width + p.x.toNat
    if global_idx < g.cells.length ∧ local_idx < cells.length then
      cells.set local_idx (g.cells.getD global_idx CellState.Unexplored)
    else cells
  else cells

/-- `RobotNode::update_local_map` from `robot_node/mod.rs`: copy the
ground-truth state of the robot's cell and its four in-bounds cardinal
neighbors into the private map. -/
def update_local_map (m : GridMap) (pos : Point) (g : GridMap) : GridMap :=
  let width := (m.width : Int)
  let height := (m.height : Int)
  let to_update := pos :: (sensing_dirs.filterMap fun dd =>
    let neighbor : Point := ⟨pos.x + dd.1, pos.y + dd.2⟩
    if 0 ≤ neighbor.x ∧ neighbor.x < width ∧ 0 ≤ neighbor.y ∧ neighbor.y < height
    then some neighbor else none)
  { m with cells := to_update.foldl (sense_write m.width g) m.cells }

/-- `WallFindPhase::sense_front` from `robot_node/phases/wall_find.rs`: the
cell one step north (`-Y`) in the robot's own map, out of bounds read as
`Obstacle`. -/
def wallfind_sense_front (pos : Point) (m : GridMap) : Point × CellState :=
  let next_pos : Point := ⟨pos.x, pos.y - 1⟩
  if next_pos.x < 0 ∨ next_pos.x ≥ (m.width : Int) ∨
      next_pos.y < 0 ∨ next_pos.y ≥ (m.height : Int) then
    (next_pos, CellState.Obstacle)
  else
    (next_pos,
      m.cells.getD (next_pos.y.toNat * m.width + next_pos.x.toNat)
        CellState.Unexplored)

/-- `WallFindPhase::execute` from `robot_node/phases/wall_find.rs`: transition
to boundary scouting when an obstacle is ahead, otherwise move forward and
mark the new cell `Empty` in the private map. -/
def wall_find_execute (pos : Point) (m : GridMap) :
    Point × GridMap × PhaseTransition :=
  let front := wallfind_sense_front pos m
  if front.2 = CellState.Obstacle then
    (pos, m, PhaseTransition.Transition RobotPhase.BoundaryScouting)
  else
    let idx := (front.1).y.toNat * m.width + (front.1).x.toNat
    (front.1, { m with cells := m.cells.set idx CellState.Empty },
      PhaseTransition.Continue)

/-! ## Boundary scouting (`robot_node/phases/boundary_scouting.rs` and the
legacy `robot_node.rs`)

`RobotState` below carries the fields the scouting code reads and writes
(`id`, pose, `phase`, `scout_depth_n`, `boundary_scout`); the remaining
fields of the Rust struct (the private map, partner bookkeeping, loop
analysis data) are untouched by these operations and omitted. -/

/-- `BoundaryScoutState` from `types.rs`. -/
structure BoundaryScoutState where
  tracing_direction : Int
  steps_taken : Nat
  steps_taken_this_scouting_mission : Nat
  returning : Bool
  path : List Point
  first_move : Bool
  initial_scouting_direction : Option Point
  total_rotation_steps : Int
deriving DecidableEq, Repr

/-- The slice of `RobotState` (`types.rs`) used by the scouting phase. -/
structure RobotState where
  id : Nat
  position : Point
  orientation : Orientation
  phase : RobotPhase
  scout_depth_n : Nat
  boundary_scout : Option BoundaryScoutState
deriving DecidableEq, Repr

/-- `RotationTracker::orientation_to_step` from
`robot_node/wall_following.rs` on the four cardinal orientations
(0 = East, 1 = South, 2 = West, 3 = North). -/
def orientation_to_step : Orientation → Int
  | Orientation.east => 0
  | Orientation.south => 1
  | Orientation.west => 2
  | Orientation.north => 3

/-- `RotationTracker::calculate_rotation_steps` from
`robot_node/wall_following.rs`: signed 90-degree step difference, wrapped
into `[-2, 2]`. -/
def calculate_rotation_steps (prev_orientation new_orientation : Orientation) :
    Int :=
  let diff := orientation_to_step new_orientation -
    orientation_to_step prev_orientation
  if diff > 2 then diff - 4 else if diff < -2 then diff + 4 else diff

/-- `WallFollower::update_orientation` from `robot_node/wall_following.rs`:
the orientation of a unit move, defaulting to north on a non-unit delta. -/
def update_orientation (prev_pos next_pos : Point) : Orientation :=
  let dx := next_pos.x - prev_pos.x
  let dy := next_pos.y - prev_pos.y
  if dx = 1 ∧ dy = 0 then Orientation.east
  else if dx = -1 ∧ dy = 0 then Orientation.west
  else if dx = 0 ∧ dy = 1 then Orientation.south
  else if dx = 0 ∧ dy = -1 then Orientation.north
  else Orientation.north

/-- `RobotNode::update_orientation` from the legacy `robot_node.rs`: same
table but a non-unit delta keeps the current orientation. -/
def legacy_update_orientation (current : Orientation) (prev_pos next_pos : Point) :
    Orientation :=
  let dx := next_pos.x - prev_pos.x
  let dy := next_pos.y - prev_pos.y
  if dx = 1 ∧ dy = 0 then Orientation.east
  else if dx = -1 ∧ dy = 0 then Orientation.west
  else if dx = 0 ∧ dy = 1 then Orientation.south
  else if dx = 0 ∧ dy = -1 then Orientation.north
  else current

/-- `within_comm_range` (identical in `robot_node/phases/boundary_scouting.rs`,
`robot_node/mod.rs` and `robot_node.rs`): Manhattan distance at most the
communication range 2. -/
def within_comm_range (a b : Point) : Bool :=
  decide (|a.x - b.x| + |a.y - b.y| ≤ COMMUNICATION_RANGE)

/-- `BoundaryScoutingPhase::initialize_boundary_scout` from
`robot_node/phases/boundary_scouting.rs` (robot 0 provisionally gets the
right-hand rule, to be corrected after the first move). -/
def initialize_boundary_scout (s : RobotState) : RobotState :=
  let tracing_direction :=
    if s.id = 0 then RIGHT_HAND_RULE else LEFT_HAND_RULE
  let scout : BoundaryScoutState :=
    { tracing_direction := tracing_direction,
      steps_taken := 0,
      steps_taken_this_scouting_mission := 0,
      returning := false,
      path := [s.position],
      first_move := true,
      initial_scouting_direction := none,
      total_rotation_steps := 0 }
  { s with boundary_scout := some scout }

/-- `BoundaryScoutingPhase::handle_return_journey` from
`robot_node/phases/boundary_scouting.rs`: walk one step back along the
recorded path, or close the leg (double the depth, reset the path to the
current cell, raise `first_move`) once the whole path has been retraced. -/
def handle_return_journey (s : RobotState) : RobotState × PhaseTransition :=
  match s.boundary_scout with
  | some scout =>
      let path_length := scout.path.length
      if scout.steps_taken_this_scouting_mission + 1 < path_length then
        let target_index :=
          path_length - 2 - scout.steps_taken_this_scouting_mission
        let next_pos := scout.path.getD target_index s.position
        ({ s with
            orientation := update_orientation s.position next_pos,
            position := next_pos,
            boundary_scout := some { scout with
              steps_taken_this_scouting_mission :=
                scout.steps_taken_this_scouting_mission + 1 } },
          PhaseTransition.Continue)
      else
        ({ s with
            scout_depth_n := s.scout_depth_n * 2,
            boundary_scout := some { scout with
              steps_taken_this_scouting_mission := 0,
              returning := false,
              path := [s.position],
              first_move := true } },
          PhaseTransition.Continue)
  | none => (s, PhaseTransition.Continue)

/-- `BoundaryScoutingPhase::execute_forward_scouting` from
`robot_node/phases/boundary_scouting.rs`: one outbound wall-follow step
(first-move variant on the first step of a leg), pose and rotation
bookkeeping, and the rendezvous check after the move. -/
def execute_forward_scouting (s : RobotState) (global_map : GridMap)
    (partner_pos : Point) : RobotState × PhaseTransition :=
  match s.boundary_scout with
  | none => (s, PhaseTransition.Continue)
  | some scout =>
      let first_move := scout.first_move
      let step1 : Option Point × RobotState :=
        if first_move then
          match scout.initial_scouting_direction with
          | some direction =>
              let next : Point :=
                ⟨s.position.x + direction.x, s.position.y + direction.y⟩
              if is_position_valid_and_empty next global_map then (some next, s)
              else
                (wall_follow_step s.position s.orientation global_map
                  scout.tracing_direction, s)
          | none =>
              match wall_follow_step_first_move s.position s.orientation
                  global_map partner_pos with
              | some p =>
                  let direction : Point :=
                    ⟨p.x - s.position.x, p.y - s.position.y⟩
                  let current_dx := (get_direction_vector s.orientation).1
                  let current_dy := (get_direction_vector s.orientation).2
                  let cross_product := current_dx * (p.y - s.position.y) -
                    current_dy * (p.x - s.position.x)
                  let correct_tracing_direction :=
                    if cross_product > 0 then RIGHT_HAND_RULE
                    else LEFT_HAND_RULE
                  (some p, { s with boundary_scout := some { scout with
                      initial_scouting_direction := some direction,
                      tracing_direction := correct_tracing_direction } })
              | none => (none, s)
        else
          (wall_follow_step s.position s.orientation global_map
            scout.tracing_direction, s)
      match step1.1 with
      | some next_pos =>
          let s1 := step1.2
          match s1.boundary_scout with
          | some scout1 =>
              let new_orientation := update_orientation s1.position next_pos
              let rotation_steps :=
                calculate_rotation_steps s1.orientation new_orientation
              let scout2 := { scout1 with
                total_rotation_steps :=
                  if scout1.first_move then 0
                  else scout1.total_rotation_steps + rotation_steps
                path := scout1.path ++ [next_pos],
                steps_taken := scout1.steps_taken + 1,
                steps_taken_this_scouting_mission :=
                  scout1.steps_taken_this_scouting_mission + 1
                first_move := false }
              let s2 := { s1 with
                orientation := new_orientation,
                position := next_pos,
                boundary_scout := some scout2 }
              if ¬ first_move ∧ within_comm_range s2.position partner_pos = true ∧
                  s2.position ≠ partner_pos then
                (s2, PhaseTransition.Transition RobotPhase.BoundaryAnalysis)
              else (s2, PhaseTransition.Continue)
          | none => (s1, PhaseTransition.Continue)
      | none => (step1.2, PhaseTransition.Continue)

/-- `BoundaryScoutingPhase::execute` from
`robot_node/phases/boundary_scouting.rs`: initialize the scout state when
absent, then dispatch to the return journey, one forward step, or the
turn-around at depth `N`. -/
def execute_boundary_scouting (s : RobotState) (global_map : GridMap)
    (partner_pos : Point) : RobotState × PhaseTransition :=
  let s0 := if s.boundary_scout.isNone then initialize_boundary_scout s else s
  let scout_n := s0.scout_depth_n
  let steps :=
    (s0.boundary_scout.map (·.steps_taken_this_scouting_mission)).getD 0
  let returning := (s0.boundary_scout.map (·.returning)).getD false
  if returning then handle_return_journey s0
  else if steps < scout_n then
    execute_forward_scouting s0 global_map partner_pos
  else
    ({ s0 with boundary_scout := s0.boundary_scout.map fun scout =>
        { scout with
          returning := true,
          steps_taken_this_scouting_mission := 0 } },
      PhaseTransition.Continue)

/-- `RobotNode::wall_follow_step_first_move` from the legacy `robot_node.rs`:
the first move prefers Left for tracing direction `-1` and Right otherwise
(no partner geometry). -/
def legacy_wall_follow_step_first_move (current_pos : Point)
    (orientation : Orientation) (global_map : GridMap)
    (tracing_direction : Int) : Option Point :=
  let current_dx := (get_direction_vector orientation).1
  let current_dy := (get_direction_vector orientation).2
  let dirs :=
    if tracing_direction = -1 then
      [(current_dy, -current_dx), (current_dx, current_dy),
       (-current_dy, current_dx), (-current_dx, -current_dy)]
    else
      [(-current_dy, current_dx), (current_dx, current_dy),
       (current_dy, -current_dx), (-current_dx, -current_dy)]
  try_priorities current_pos global_map dirs

/-- `RobotNode::execute_boundary_scouting_leg` from the legacy
`robot_node.rs`: the monolithic per-tick scouting step.  It differs from the
phase-based version in that the return journey pops the recorded path and
that a rendezvous sets the phase to `BoundaryAnalysis` *and doubles
`scout_depth_n`*. -/
def legacy_execute_boundary_scouting_leg (s : RobotState)
    (global_map : GridMap) (partner_pos : Point) : RobotState :=
  let s0 :=
    match s.boundary_scout with
    | none =>
        let tracing_direction : Int := if s.id = 0 then -1 else 1
        let scout : BoundaryScoutState :=
          { tracing_direction := tracing_direction,
            steps_taken := 0,
            steps_taken_this_scouting_mission := 0,
            returning := false,
            path := [s.position],
            first_move := true,
            initial_scouting_direction := none,
            total_rotation_steps := 0 }
        { s with boundary_scout := some scout }
    | some scout =>
        if ¬ scout.returning ∧ scout.steps_taken_this_scouting_mission = 0 then
          { s with boundary_scout := some { scout with first_move := true } }
        else s
  let scout_n := s0.scout_depth_n
  match s0.boundary_scout with
  | none => s0
  | some scout =>
      if scout.returning then
        if scout.path.length > 1 then
          let path' := scout.path.dropLast
          match path'.getLast? with
          | some prev =>
              { s0 with
                  position := prev,
                  boundary_scout := some { scout with path := path' } }
          | none => s0
        else
          { s0 with
              scout_depth_n := scout_n * 2,
              boundary_scout := some { scout with
                steps_taken_this_scouting_mission := 0,
                returning := false,
                path := [s0.position],
                first_move := true } }
      else if scout.steps_taken_this_scouting_mission < scout_n then
        let step1 : Option Point × RobotState :=
          if scout.first_move then
            match scout.initial_scouting_direction with
            | some direction =>
                let next : Point :=
                  ⟨s0.position.x + direction.x, s0.position.y + direction.y⟩
                if is_position_valid_and_empty next global_map then
                  (some next, s0)
                else
                  (legacy_wall_follow_step_first_move s0.position
                    s0.orientation global_map scout.tracing_direction, s0)
            | none =>
                match legacy_wall_follow_step_first_move s0.position
                    s0.orientation global_map scout.tracing_direction with
                | some p =>
                    let direction : Point :=
                      ⟨p.x - s0.position.x, p.y - s0.position.y⟩
                    (some p, { s0 with boundary_scout := some { scout with
                        initial_scouting_direction := some direction } })
                | none => (none, s0)
          else
            (wall_follow_step s0.position s0.orientation global_map
              scout.tracing_direction, s0)
        match step1.1 with
        | some next_pos =>
            let s1 := step1.2
            match s1.boundary_scout with
            | some scout1 =>
                let new_orientation :=
                  legacy_update_orientation s1.orientation s1.position next_pos
                let rotation_steps :=
                  calculate_rotation_steps s1.orientation new_orientation
                let scout2 := { scout1 with
                  total_rotation_steps :=
                    if scout1.first_move then 0
                    else scout1.total_rotation_steps + rotation_steps
                  path := scout1.path ++ [next_pos],
                  steps_taken := scout1.steps_taken + 1,
                  steps_taken_this_scouting_mission :=
                    scout1.steps_taken_this_scouting_mission + 1
                  first_move := false }
                let s2 := { s1 with
                  orientation := new_orientation,
                  position := next_pos,
                  boundary_scout := some scout2 }
                if ¬ scout.first_move ∧
                    within_comm_range s2.position partner_pos = true ∧
                    s2.position ≠ partner_pos then
                  { s2 with
                      phase := RobotPhase.BoundaryAnalysis,
                      scout_depth_n := s2.scout_depth_n * 2 }
                else s2
            | none => s1
        | none => step1.2
      else
        { s0 with boundary_scout := some { scout with
            returning := true,
            steps_taken_this_scouting_mission := 0 } }

lemma is_position_valid_and_empty_eq_candidateOk (p : Point) (m : GridMap) :
    is_position_valid_and_empty p m = candidateOk m p := by
  unfold is_position_valid_and_empty candidateOk inBounds cellAt
  by_cases hx0 : p.x < 0 <;> by_cases hy0 : p.y < 0 <;>
    by_cases hxw : p.x ≥ (m.width : Int) <;> by_cases hyh : p.y ≥ (m.height : Int) <;>
    simp_all

lemma try_priorities_eq_find (pos : Point) (m : GridMap) (offsets : List (Int × Int)) :
    try_priorities pos m offsets = (candidates pos offsets).find? (candidateOk m) := by
  induction offsets with
  | nil => rfl
  | cons od rest ih =>
      obtain ⟨dx, dy⟩ := od
      simp only [try_priorities, candidates, List.map_cons, List.find?,
        is_position_valid_and_empty_eq_candidateOk]
      by_cases h : candidateOk m ⟨pos.x + dx, pos.y + dy⟩ = true
      · simp [h]
      · simp only [Bool.not_eq_true] at h
        simp [h, ih, candidates]

/-- C1: `analyze_boundary_by_rotation` returns `ExteriorWall` exactly when both
rotation totals are present and `r0 - r1 = -4`, `Island` exactly when both are
present and `r0 - r1 = 4`, and `Incomplete` in every other case (including
when either rotation total is absent). -/
lemma getD_set_self (l : List CellState) (i : Nat) (v d : CellState)
    (h : i < l.length) : (l.set i v).getD i d = v := by
  simp [List.getD_eq_getElem?_getD, List.getElem?_set, h]

lemma getD_set_ne (l : List CellState) (i j : Nat) (v d : CellState)
    (h : i ≠ j) : (l.set i v).getD j d = l.getD j d := by
  simp [List.getD_eq_getElem?_getD, List.getElem?_set, h]

lemma mergeCellsAux_length : ∀ (o s r : List CellState) (i : Nat),
    mergeCellsAux s o i = some r → r.length = s.length := by
  intro o
  induction o with
  | nil =>
      intro s r i h
      simp only [mergeCellsAux, Option.some.injEq] at h
      rw [← h]
  | cons c rest ih =>
      intro s r i h
      simp only [mergeCellsAux] at h
      by_cases hc : c = CellState.Unexplored
      · simp only [hc, ne_eq, not_true_eq_false, if_false] at h
        exact ih s r (i + 1) h
      · simp only [ne_eq, hc, not_false_eq_true, if_true] at h
        by_cases hi : i < s.length
        · simp only [hi, if_true] at h
          have := ih (s.set i c) r (i + 1) h
          simpa using this
        · simp [hi] at h

/-- Full characterization of the merge loop: the cell at index `j` of the
result is the partner's cell `j - i` when that offset is in range and not
`Unexplored`, and the receiver's original cell otherwise. -/
lemma mergeCellsAux_getD : ∀ (o s r : List CellState) (i : Nat),
    mergeCellsAux s o i = some r → ∀ j d,
      r.getD j d =
        if i ≤ j ∧ j - i < o.length ∧ o.getD (j - i) d ≠ CellState.Unexplored
        then o.getD (j - i) d else s.getD j d := by
  intro o
  induction o with
  | nil =>
      intro s r i h j d
      simp only [mergeCellsAux, Option.some.injEq] at h
      subst h
      simp
  | cons c rest ih =>
      intro s r i h j d
      simp only [mergeCellsAux] at h
      by_cases hc : c = CellState.Unexplored
      · simp only [hc, ne_eq, not_true_eq_false, if_false] at h
        have hrec := ih s r (i + 1) h j d
        rcases Nat.lt_or_ge j (i + 1) with hj | hj
        · -- j ≤ i: neither loop wrote to j, and the head cell is `Unexplored`
          rw [hrec, if_neg (by omega)]
          by_cases hji : i ≤ j
          · have : j = i := by omega
            subst this
            rw [if_neg]
            simp [hc]
          · rw [if_neg (by omega)]
        · -- j > i: index into the tail
          rw [hrec]
          have h1 : j - i = (j - (i + 1)) + 1 := by omega
          have h2 : (c :: rest).getD (j - i) d = rest.getD (j - (i + 1)) d := by
            rw [h1, List.getD_cons_succ]
          rw [h2]
          by_cases hcond : i + 1 ≤ j ∧ j - (i + 1) < rest.length ∧
              rest.getD (j - (i + 1)) d ≠ CellState.Unexplored
          · rw [if_pos hcond, if_pos (by
              refine ⟨by omega, ?_, hcond.2.2⟩
              simp only [List.length_cons]
              omega)]
          · rw [if_neg hcond, if_neg (by
              intro hcontra
              exact hcond ⟨by omega, by simp only [List.length_cons] at hcontra; omega, hcontra.2.2⟩)]
      · simp only [ne_eq, hc, not_false_eq_true, if_true] at h
        by_cases hi : i < s.length
        · simp only [hi, if_true] at h
          have hrec := ih (s.set i c) r (i + 1) h j d
          rcases Nat.lt_or_ge j (i + 1) with hj | hj
          · by_cases hji : j = i
            · subst hji
              rw [hrec, if_neg (by omega), getD_set_self s j c d hi,
                  if_pos ⟨le_refl j, by simp, by simp [List.getD_cons_zero, hc]⟩]
              simp
            · rw [hrec, if_neg (by omega), getD_set_ne s i j c d (by omega),
                  if_neg (by omega)]
          · rw [hrec, getD_set_ne s i j c d (by omega)]
            have h1 : j - i = (j - (i + 1)) + 1 := by omega
            have h2 : (c :: rest).getD (j - i) d = rest.getD (j - (i + 1)) d := by
              rw [h1, List.getD_cons_succ]
            by_cases hcond : i + 1 ≤ j ∧ j - (i + 1) < rest.length ∧
                rest.getD (j - (i + 1)) d ≠ CellState.Unexplored
            · rw [if_pos hcond, h2, if_pos (by
                refine ⟨by omega, ?_, hcond.2.2⟩
                simp only [List.length_cons]
                omega)]
            · rw [if_neg hcond, if_neg (by
                intro hcontra
                rw [h2] at hcontra
                exact hcond ⟨by omega, by simp only [List.length_cons] at hcontra; omega, hcontra.2.2⟩)]
        · simp [hi] at h

/-- The merge loop succeeds (no panic) iff every non-`Unexplored` partner cell
lies at an index inside the receiver's cell vector. -/
lemma mergeCellsAux_isSome : ∀ (o s : List CellState) (i : Nat),
    (mergeCellsAux s o i).isSome = true ↔
      ∀ t, t < o.length → o.getD t CellState.Unexplored ≠ CellState.Unexplored →
        i + t < s.length := by
  intro o
  induction o with
  | nil =>
      intro s i
      simp [mergeCellsAux]
  | cons c rest ih =>
      intro s i
      simp only [mergeCellsAux]
      by_cases hc : c = CellState.Unexplored
      · simp only [hc, ne_eq, not_true_eq_false, if_false]
        rw [ih s (i + 1)]
        constructor
        · intro h t ht hne
          match t with
          | 0 => simp [List.getD_cons_zero] at hne
          | t' + 1 =>
              have := h t' (by simpa using ht) (by simpa [List.getD_cons_succ] using hne)
              omega
        · intro h t ht hne
          have := h (t + 1) (by simpa using ht) (by simpa [List.getD_cons_succ] using hne)
          omega
      · simp only [ne_eq, hc, not_false_eq_true, if_true]
        by_cases hi : i < s.length
        · simp only [hi, if_true]
          rw [ih (s.set i c) (i + 1)]
          simp only [List.length_set]
          constructor
          · intro h t ht hne
            match t with
            | 0 => omega
            | t' + 1 =>
                have := h t' (by simpa using ht) (by simpa [List.getD_cons_succ] using hne)
                omega
          · intro h t ht hne
            have := h (t + 1) (by simpa using ht) (by simpa [List.getD_cons_succ] using hne)
            omega
        · simp only [hi, if_false]
          constructor
          · intro h
            simp at h
          · intro h
            exfalso
            have := h 0 (by simp) (by simpa [List.getD_cons_zero] using hc)
            omega

/-- C8: for equally sized maps, merging sets `self[i] := other[i]` exactly when
`other[i] ≠ Unexplored` and leaves `self[i]` unchanged otherwise; merging the
two-cell maps `{A = Empty, B = Unexplored}` and `{A = Unexplored, B = Obstacle}`
pairwise yields `{A = Empty, B = Obstacle}` on both sides. -/
lemma cellsOfChars_all_valid (cs : List Char) (h : ∀ c ∈ cs, validMapChar c = true) :
    cellsOfChars cs = Except.ok (cs.map charCell) := by
  induction cs with
  | nil => rfl
  | cons ch rest ih =>
      have hch := h ch (List.mem_cons_self ch rest)
      have hrest := ih fun c hc => h c (List.mem_cons_of_mem ch hc)
      simp only [validMapChar, Bool.or_eq_true, decide_eq_true_eq] at hch
      simp only [cellsOfChars, List.map_cons, charCell]
      rcases hch with ((h1 | h1) | h1) | h1 <;> subst h1 <;> simp [hrest, Except.map]

lemma cellsOfChars_invalid (cs : List Char) (h : ∃ c ∈ cs, validMapChar c = false) :
    ∃ msg, cellsOfChars cs = Except.error msg := by
  induction cs with
  | nil => simp at h
  | cons ch rest ih =>
      by_cases hch : validMapChar ch = true
      · obtain ⟨c, hc, hcv⟩ := h
        rcases List.mem_cons.mp hc with rfl | hc'
        · rw [hch] at hcv
          cases hcv
        · obtain ⟨msg, hmsg⟩ := ih ⟨c, hc', hcv⟩
          simp only [validMapChar, Bool.or_eq_true, decide_eq_true_eq] at hch
          simp only [cellsOfChars]
          rcases hch with ((h1 | h1) | h1) | h1 <;> subst h1 <;> simp [hmsg, Except.map]
      · have h1 : ¬ ch = '#' := fun e => by subst e; simp [validMapChar] at hch
        have h2 : ¬ ch = '.' := fun e => by subst e; simp [validMapChar] at hch
        have h34 : ¬ (ch = ' ' ∨ ch = '?') := by
          rintro (e | e) <;> subst e <;> simp [validMapChar] at hch
        simp only [cellsOfChars, if_neg h1, if_neg h2, if_neg h34]
        exact ⟨_, rfl⟩

/-- C9: loading a map errors on an empty file, on rows of unequal length, and
on any character other than '#', '.', ' ' and '?'; otherwise it returns a grid
whose width is the length of the first line, whose height is the number of
lines, and whose cells translate '#' to `Obstacle`, '.' to `Empty`, and ' '
and '?' to `Unexplored`. -/
lemma sense_write_preserves_known (lw : Nat) (g : GridMap)
    (hg : CellState.Unexplored ∉ g.cells) (cells : List CellState) (p : Point)
    (i : Nat)
    (h : (sense_write lw g cells p).getD i CellState.Unexplored =
      CellState.Unexplored) :
    cells.getD i CellState.Unexplored = CellState.Unexplored := by
  unfold sense_write at h
  by_cases hnn : 0 ≤ p.x ∧ 0 ≤ p.y
  · rw [if_pos hnn] at h
    by_cases hidx : p.y.toNat * g.width + p.x.toNat < g.cells.length ∧
        p.y.toNat * lw + p.x.toNat < cells.length
    · rw [if_pos hidx] at h
      have hval : g.cells.getD (p.y.toNat * g.width + p.x.toNat)
          CellState.Unexplored ≠ CellState.Unexplored := by
        intro heq
        apply hg
        rw [← heq]
        rw [List.getD_eq_getElem _ _ hidx.1]
        exact List.getElem_mem hidx.1
      by_cases hi : i = p.y.toNat * lw + p.x.toNat
      · subst hi
        rw [getD_set_self _ _ _ _ hidx.2] at h
        exact absurd h hval
      · rw [getD_set_ne _ _ _ _ _ (fun e => hi e.symm)] at h
        exact h
    · rw [if_neg hidx] at h
      exact h
  · rw [if_neg hnn] at h
    exact h

lemma foldl_sense_preserves_known (lw : Nat) (g : GridMap)
    (hg : CellState.Unexplored ∉ g.cells) :
    ∀ (pts : List Point) (cells : List CellState) (i : Nat),
      ((pts.foldl (sense_write lw g) cells).getD i CellState.Unexplored =
        CellState.Unexplored) →
      cells.getD i CellState.Unexplored = CellState.Unexplored := by
  intro pts
  induction pts with
  | nil => intro cells i h; exact h
  | cons p rest ih =>
      intro cells i h
      exact sense_write_preserves_known lw g hg cells p i (ih _ i h)

lemma handle_return_journey_continue (s : RobotState) :
    (handle_return_journey s).2 = PhaseTransition.Continue := by
  unfold handle_return_journey
  rcases h : s.boundary_scout with _ | scout
  · rfl
  · simp only []
    split <;> rfl

lemma ebs_of_returning (s : RobotState) (g : GridMap) (p : Point)
    (scout : BoundaryScoutState) (hsc : s.boundary_scout = some scout)
    (hret : scout.returning = true) :
    execute_boundary_scouting s g p = handle_return_journey s := by
  unfold execute_boundary_scouting
  simp [hsc, hret]

lemma ebs_eq_forward (s : RobotState) (g : GridMap) (p : Point)
    (scout : BoundaryScoutState) (hsc : s.boundary_scout = some scout)
    (hret : scout.returning = false)
    (hsteps : scout.steps_taken_this_scouting_mission < s.scout_depth_n) :
    execute_boundary_scouting s g p = execute_forward_scouting s g p := by
  unfold execute_boundary_scouting
  simp [hsc, hret, hsteps]

lemma ebs_at_depth (s : RobotState) (g : GridMap) (p : Point)
    (scout : BoundaryScoutState) (hsc : s.boundary_scout = some scout)
    (hret : scout.returning = false)
    (hsteps : ¬ scout.steps_taken_this_scouting_mission < s.scout_depth_n) :
    execute_boundary_scouting s g p =
      ({ s with boundary_scout := some { scout with
          returning := true,
          steps_taken_this_scouting_mission := 0 } },
        PhaseTransition.Continue) := by
  unfold execute_boundary_scouting
  simp [hsc, hret, hsteps]

lemma efs_continue_of_first_move (s : RobotState) (g : GridMap) (p : Point)
    (scout : BoundaryScoutState) (hsc : s.boundary_scout = some scout)
    (hfm : scout.first_move = true) :
    (execute_forward_scouting s g p).2 = PhaseTransition.Continue := by
  unfold execute_forward_scouting
  rw [hsc]
  simp only [hfm]
  rcases hdir : scout.initial_scouting_direction with _ | d
  · rcases hn : wall_follow_step_first_move s.position s.orientation g p
        with _ | np <;> simp [hn, hfm, hsc]
  · by_cases hv : is_position_valid_and_empty
        ⟨s.position.x + d.x, s.position.y + d.y⟩ g = true
    · simp [hv, hfm, hsc]
    · rcases hn : wall_follow_step s.position s.orientation g
          scout.tracing_direction with _ | np <;>
        simp [hv, hn, hfm, hsc]

lemma efs_transition_iff (s : RobotState) (g : GridMap) (p : Point)
    (scout : BoundaryScoutState) (hsc : s.boundary_scout = some scout)
    (hfm : scout.first_move = false) :
    ((execute_forward_scouting s g p).2 =
        PhaseTransition.Transition RobotPhase.BoundaryAnalysis) ↔
      ∃ np, wall_follow_step s.position s.orientation g
          scout.tracing_direction = some np ∧
        within_comm_range np p = true ∧ np ≠ p := by
  unfold execute_forward_scouting
  rw [hsc]
  simp only [hfm, Bool.false_eq_true, if_false]
  rcases hn : wall_follow_step s.position s.orientation g
      scout.tracing_direction with _ | np
  · simp [hn]
  · simp only [hn, hsc]
    by_cases hw : within_comm_range np p = true
    · by_cases hne : np ≠ p
      · simp [hw, hne]
      · simp [hw, hne]
    · simp [hw]

lemma efs_scout_depth (s : RobotState) (g : GridMap) (p : Point) :
    (execute_forward_scouting s g p).1.scout_depth_n = s.scout_depth_n := by
  unfold execute_forward_scouting
  rcases hsc : s.boundary_scout with _ | scout
  · rfl
  · simp only []
    rcases hfm : scout.first_move with _ | _
    · simp only [hfm, Bool.false_eq_true, if_false]
      rcases hn : wall_follow_step s.position s.orientation g
          scout.tracing_direction with _ | np
      · simp [hn, hsc]
      · simp only [hn, hsc]
        split <;> rfl
    · simp only [hfm]
      rcases hdir : scout.initial_scouting_direction with _ | d
      · rcases hn : wall_follow_step_first_move s.position s.orientation g p
            with _ | np <;> simp [hn, hsc]
      · by_cases hv : is_position_valid_and_empty
            ⟨s.position.x + d.x, s.position.y + d.y⟩ g = true
        · simp [hv, hsc]
        · rcases hn : wall_follow_step s.position s.orientation g
              scout.tracing_direction with _ | np <;> simp [hv, hn, hsc]

lemma ebs_none_continue (s : RobotState) (g : GridMap) (p : Point)
    (hsc : s.boundary_scout = none) :
    (execute_boundary_scouting s g p).2 = PhaseTransition.Continue := by
  unfold execute_boundary_scouting
  simp only [hsc, Option.isNone_none, if_true]
  have hsc0 : (initialize_boundary_scout s).boundary_scout = some
      { tracing_direction := if s.id = 0 then RIGHT_HAND_RULE else LEFT_HAND_RULE,
        steps_taken := 0,
        steps_taken_this_scouting_mission := 0,
        returning := false,
        path := [s.position],
        first_move := true,
        initial_scouting_direction := none,
        total_rotation_steps := 0 } := rfl
  rw [hsc0]
  simp only [Option.map_some', Option.getD_some, Bool.false_eq_true, if_false]
  by_cases hN : 0 < (initialize_boundary_scout s).scout_depth_n
  · rw [if_pos hN]
    exact efs_continue_of_first_move _ g p _ hsc0 rfl
  · rw [if_neg hN]

lemma within_comm_range_iff (a b : Point) :
    within_comm_range a b = true ↔ |a.x - b.x| + |a.y - b.y| ≤ COMMUNICATION_RANGE := by
  simp [within_comm_range]

/-- C4: during boundary scouting, the transition to `BoundaryAnalysis`
happens exactly on an outbound step (`returning = false`,
`steps_this_leg < N`) that is not the leg's first move, whose wall-follow
move succeeds, and whose landing cell is within Manhattan distance 2 of the
partner and distinct from it; it never happens on the return journey, on a
first move, or when the two agents occupy the same cell. -/
theorem c4_rendezvous_transition (s : RobotState) (g : GridMap) (ppos : Point) :
    (execute_boundary_scouting s g ppos).2 =
        PhaseTransition.Transition RobotPhase.BoundaryAnalysis ↔
      ∃ scout, s.boundary_scout = some scout ∧
        scout.returning = false ∧
        scout.steps_taken_this_scouting_mission < s.scout_depth_n ∧
        scout.first_move = false ∧
        ∃ np, wall_follow_step s.position s.orientation g
            scout.tracing_direction = some np ∧
          |np.x - ppos.x| + |np.y - ppos.y| ≤ COMMUNICATION_RANGE ∧
          np ≠ ppos := by
  rcases hsc : s.boundary_scout with _ | scout
  · rw [ebs_none_continue s g ppos hsc]
    simp
  · by_cases hret : scout.returning = true
    · rw [ebs_of_returning s g ppos scout hsc hret,
        handle_return_journey_continue]
      simp only [Option.some.injEq]
      constructor
      · intro h
        cases h
      · rintro ⟨scout', heq, hret', _⟩
        subst heq
        rw [hret] at hret'
        cases hret'
    · have hret' : scout.returning = false := by
        revert hret
        cases scout.returning <;> simp
      by_cases hsteps : scout.steps_taken_this_scouting_mission < s.scout_depth_n
      · rw [ebs_eq_forward s g ppos scout hsc hret' hsteps]
        rcases hfm : scout.first_move with _ | _
        · rw [efs_transition_iff s g ppos scout hsc hfm]
          constructor
          · rintro ⟨np, hnp, hw, hne⟩
            exact ⟨scout, rfl, hret', hsteps, hfm, np, hnp,
              (within_comm_range_iff np ppos).mp hw, hne⟩
          · rintro ⟨scout', heq, _, _, _, np, hnp, hdist, hne⟩
            rw [Option.some.injEq] at heq
            subst heq
            exact ⟨np, hnp, (within_comm_range_iff np ppos).mpr hdist, hne⟩
        · rw [efs_continue_of_first_move s g ppos scout hsc hfm]
          constructor
          · intro h
            cases h
          · rintro ⟨scout', heq, _, _, hfm', _⟩
            rw [Option.some.injEq] at heq
            subst heq
            rw [hfm] at hfm'
            cases hfm'
      · rw [ebs_at_depth s g ppos scout hsc hret' hsteps]
        simp only [Option.some.injEq]
        constructor
        · intro h
          cases h
        · rintro ⟨scout', heq, _, hsteps', _⟩
          subst heq
          exact absurd hsteps' hsteps

lemma legacy_phase_cases (s : RobotState) (g : GridMap) (p : Point) :
    (legacy_execute_boundary_scouting_leg s g p).phase = s.phase ∨
      ((legacy_execute_boundary_scouting_leg s g p).phase =
          RobotPhase.BoundaryAnalysis ∧
        (legacy_execute_boundary_scouting_leg s g p).scout_depth_n =
          2 * s.scout_depth_n) := by
  unfold legacy_execute_boundary_scouting_leg
  rcases hsc : s.boundary_scout with _ | scout <;>
    simp only [hsc] <;>
    repeat' split
  all_goals
    first
      | (left; rfl)
      | (right; exact ⟨rfl, Nat.mul_comm _ 2⟩)

/-- C5: the scout depth is doubled when the return journey completes at the
leg start, and only then during the phase-based scouting step (so, absent
rendezvous, consecutive legs use depths `N` and `2N`); the legacy scouting
step additionally doubles the depth at rendezvous, when it transitions to
`BoundaryAnalysis`. -/
theorem c5_scout_depth_doubling (s : RobotState) (g : GridMap) (p : Point) :
    ((∃ scout, s.boundary_scout = some scout ∧ scout.returning = true ∧
        scout.path.length ≤ scout.steps_taken_this_scouting_mission + 1) →
      (execute_boundary_scouting s g p).1.scout_depth_n =
        2 * s.scout_depth_n) ∧
    ((¬ ∃ scout, s.boundary_scout = some scout ∧ scout.returning = true ∧
        scout.path.length ≤ scout.steps_taken_this_scouting_mission + 1) →
      (execute_boundary_scouting s g p).1.scout_depth_n = s.scout_depth_n) ∧
    (s.phase = RobotPhase.BoundaryScouting →
      (legacy_execute_boundary_scouting_leg s g p).phase =
        RobotPhase.BoundaryAnalysis →
      (legacy_execute_boundary_scouting_leg s g p).scout_depth_n =
        2 * s.scout_depth_n) := by
  refine ⟨?_, ?_, ?_⟩
  · rintro ⟨scout, hsc, hret, hlen⟩
    rw [ebs_of_returning s g p scout hsc hret]
    unfold handle_return_journey
    rw [hsc]
    simp only []
    rw [if_neg (by omega)]
    exact Nat.mul_comm _ 2
  · intro hno
    rcases hsc : s.boundary_scout with _ | scout
    · unfold execute_boundary_scouting
      simp only [hsc, Option.isNone_none, if_true]
      have hsc0 : (initialize_boundary_scout s).boundary_scout = some
          { tracing_direction :=
              if s.id = 0 then RIGHT_HAND_RULE else LEFT_HAND_RULE,
            steps_taken := 0,
            steps_taken_this_scouting_mission := 0,
            returning := false,
            path := [s.position],
            first_move := true,
            initial_scouting_direction := none,
            total_rotation_steps := 0 } := rfl
      rw [hsc0]
      simp only [Option.map_some', Option.getD_some, Bool.false_eq_true,
        if_false]
      by_cases hN : 0 < (initialize_boundary_scout s).scout_depth_n
      · rw [if_pos hN, efs_scout_depth]
        rfl
      · rw [if_neg hN]
        rfl
    · by_cases hret : scout.returning = true
      · rw [ebs_of_returning s g p scout hsc hret]
        unfold handle_return_journey
        rw [hsc]
        simp only []
        have hlt : scout.steps_taken_this_scouting_mission + 1 <
            scout.path.length := by
          by_contra hh
          exact hno ⟨scout, hsc, hret, by omega⟩
        rw [if_pos hlt]
      · have hret' : scout.returning = false := by
          revert hret
          cases scout.returning <;> simp
        by_cases hsteps :
            scout.steps_taken_this_scouting_mission < s.scout_depth_n
        · rw [ebs_eq_forward s g p scout hsc hret' hsteps, efs_scout_depth]
        · rw [ebs_at_depth s g p scout hsc hret' hsteps]
  · intro hphase hBA
    rcases legacy_phase_cases s g p with h | ⟨_, h2⟩
    · rw [hBA, hphase] at h
      cases h
    · exact h2

/-- C5 witness: the three doubling facts at concrete scouting states — a
completed return journey (depth 3 to 6), an untouched forward step (depth
stays 3), and a legacy rendezvous (depth 3 to 6). -/
theorem c5_scout_depth_doubling_witness :
    (execute_boundary_scouting
        ⟨0, ⟨0, 0⟩, Orientation.east, RobotPhase.BoundaryScouting, 3,
          some ⟨-1, 0, 0, true, [⟨0, 0⟩], false, none, 0⟩⟩
        ⟨2, 1, [CellState.Empty, CellState.Empty]⟩ ⟨0, 0⟩).1.scout_depth_n =
      2 * 3 ∧
    (execute_boundary_scouting
        ⟨0, ⟨0, 0⟩, Orientation.east, RobotPhase.BoundaryScouting, 3, none⟩
        ⟨2, 1, [CellState.Empty, CellState.Empty]⟩ ⟨0, 0⟩).1.scout_depth_n =
      3 ∧
    (legacy_execute_boundary_scouting_leg
        ⟨0, ⟨0, 0⟩, Orientation.east, RobotPhase.BoundaryScouting, 3,
          some ⟨-1, 1, 1, false, [⟨1, 0⟩, ⟨0, 0⟩], false, none, 0⟩⟩
        ⟨2, 1, [CellState.Empty, CellState.Empty]⟩ ⟨0, 0⟩).scout_depth_n =
      2 * 3 :=
  ⟨(c5_scout_depth_doubling
      ⟨0, ⟨0, 0⟩, Orientation.east, RobotPhase.BoundaryScouting, 3,
        some ⟨-1, 0, 0, true, [⟨0, 0⟩], false, none, 0⟩⟩
      ⟨2, 1, [CellState.Empty, CellState.Empty]⟩ ⟨0, 0⟩).1
      ⟨⟨-1, 0, 0, true, [⟨0, 0⟩], false, none, 0⟩, rfl, rfl, by decide⟩,
   (c5_scout_depth_doubling
      ⟨0, ⟨0, 0⟩, Orientation.east, RobotPhase.BoundaryScouting, 3, none⟩
      ⟨2, 1, [CellState.Empty, CellState.Empty]⟩ ⟨0, 0⟩).2.1
      (by rintro ⟨scout, hsc, _⟩; cases hsc),
   (c5_scout_depth_doubling
      ⟨0, ⟨0, 0⟩, Orientation.east, RobotPhase.BoundaryScouting, 3,
        some ⟨-1, 1, 1, false, [⟨1, 0⟩, ⟨0, 0⟩], false, none, 0⟩⟩
      ⟨2, 1, [CellState.Empty, CellState.Empty]⟩ ⟨0, 0⟩).2.2 rfl (by decide)⟩

lemma getD_congr_default (l : List Point) (i : Nat) (h : i < l.length)
    (d1 d2 : Point) : l.getD i d1 = l.getD i d2 := by
  rw [List.getD_eq_getElem _ _ h, List.getD_eq_getElem _ _ h]

lemma getD_of_getLast (l : List Point) (x : Point) (h : l.getLast? = some x)
    (d : Point) : l.getD (l.length - 1) d = x := by
  rw [List.getLast?_eq_getElem?] at h
  rw [List.getD_eq_getElem?_getD, h]
  rfl

lemma return_iterate (g : GridMap) (ppos : Point) :
    ∀ (j : Nat) (s : RobotState) (scout : BoundaryScoutState),
      s.boundary_scout = some scout →
      scout.returning = true →
      scout.steps_taken_this_scouting_mission = 0 →
      scout.path.getLast? = some s.position →
      j ≤ scout.path.length - 1 →
      ∃ o', (fun st => (execute_boundary_scouting st g ppos).1)^[j] s =
        { id := s.id,
          position := scout.path.getD (scout.path.length - 1 - j) s.position,
          orientation := o',
          phase := s.phase,
          scout_depth_n := s.scout_depth_n,
          boundary_scout := some
            { tracing_direction := scout.tracing_direction,
              steps_taken := scout.steps_taken,
              steps_taken_this_scouting_mission := j,
              returning := true,
              path := scout.path,
              first_move := scout.first_move,
              initial_scouting_direction := scout.initial_scouting_direction,
              total_rotation_steps := scout.total_rotation_steps } } := by
  intro j
  induction j with
  | zero =>
      intro s scout hsc hret hsteps hpos _
      refine ⟨s.orientation, ?_⟩
      have hdef : scout.path.getD (scout.path.length - 1 - 0) s.position =
          s.position := by
        simpa using getD_of_getLast scout.path s.position hpos s.position
      rcases s with ⟨id, pos, orient, phase, n, bs⟩
      rcases scout with ⟨td, st, stm, ret, pth, fm, isd, trs⟩
      simp only [Function.iterate_zero, id_eq]
      simp_all
  | succ j ih =>
      intro s scout hsc hret hsteps hpos hj
      have hne : scout.path ≠ [] := by
        intro e
        rw [e] at hpos
        cases hpos
      have hlen : 1 ≤ scout.path.length := List.length_pos.mpr hne
      have hj' : j ≤ scout.path.length - 1 := by omega
      obtain ⟨o', hstate⟩ := ih s scout hsc hret hsteps hpos hj'
      rw [Function.iterate_succ_apply', hstate]
      have hcond : j + 1 < scout.path.length := by omega
      rw [ebs_of_returning _ g ppos
        { tracing_direction := scout.tracing_direction,
          steps_taken := scout.steps_taken,
          steps_taken_this_scouting_mission := j,
          returning := true,
          path := scout.path,
          first_move := scout.first_move,
          initial_scouting_direction := scout.initial_scouting_direction,
          total_rotation_steps := scout.total_rotation_steps } rfl rfl]
      unfold handle_return_journey
      simp only []
      rw [if_pos (by simpa using hcond)]
      have hidx : scout.path.length - 2 - j =
          scout.path.length - 1 - (j + 1) := by omega
      have hdef2 : ∀ d1 : Point,
          scout.path.getD (scout.path.length - 2 - j) d1 =
            scout.path.getD (scout.path.length - 1 - (j + 1)) s.position := by
        intro d1
        rw [hidx]
        exact getD_congr_default _ _ (by omega) _ _
      simp only [hdef2]
      exact ⟨_, rfl⟩

/-- C6: for a leg whose outbound part recorded the path `p0 :: rest` (`p0`
the leg start) and whose return journey is about to begin at the path's last
cell, after `rest.length` scouting steps the agent stands on `p0`, and the
next step closes the leg: the position stays `p0`, the new path is the
singleton `[p0]`, `first_move` is raised and `returning` is cleared. -/
theorem c6_return_journey_symmetry (g : GridMap) (ppos : Point)
    (s : RobotState) (scout : BoundaryScoutState) (p0 : Point)
    (rest : List Point)
    (hsc : s.boundary_scout = some scout)
    (hret : scout.returning = true)
    (hsteps : scout.steps_taken_this_scouting_mission = 0)
    (hpath : scout.path = p0 :: rest)
    (hpos : scout.path.getLast? = some s.position) :
    ((fun st => (execute_boundary_scouting st g ppos).1)^[rest.length]
        s).position = p0 ∧
    ((fun st => (execute_boundary_scouting st g ppos).1)^[rest.length + 1]
        s).position = p0 ∧
    (((fun st => (execute_boundary_scouting st g ppos).1)^[rest.length + 1]
        s).boundary_scout.map (fun sc => sc.path)) = some [p0] ∧
    (((fun st => (execute_boundary_scouting st g ppos).1)^[rest.length + 1]
        s).boundary_scout.map (fun sc => sc.first_move)) = some true ∧
    (((fun st => (execute_boundary_scouting st g ppos).1)^[rest.length + 1]
        s).boundary_scout.map (fun sc => sc.returning)) = some false := by
  have hlen : scout.path.length = rest.length + 1 := by
    rw [hpath]
    simp
  obtain ⟨o', hk⟩ := return_iterate g ppos rest.length s scout hsc hret hsteps
    hpos (by omega)
  have hgd : scout.path.getD (scout.path.length - 1 - rest.length) s.position
      = p0 := by
    have h0 : scout.path.length - 1 - rest.length = 0 := by omega
    rw [h0, hpath]
    rfl
  have hF1 : (fun st => (execute_boundary_scouting st g ppos).1)^[rest.length + 1] s =
      (execute_boundary_scouting
        ((fun st => (execute_boundary_scouting st g ppos).1)^[rest.length] s)
        g ppos).1 :=
    Function.iterate_succ_apply' _ _ _
  have hstep : (execute_boundary_scouting
      ({ id := s.id,
         position := scout.path.getD (scout.path.length - 1 - rest.length)
           s.position,
         orientation := o',
         phase := s.phase,
         scout_depth_n := s.scout_depth_n,
         boundary_scout := some
           { tracing_direction := scout.tracing_direction,
             steps_taken := scout.steps_taken,
             steps_taken_this_scouting_mission := rest.length,
             returning := true,
             path := scout.path,
             first_move := scout.first_move,
             initial_scouting_direction := scout.initial_scouting_direction,
             total_rotation_steps := scout.total_rotation_steps } } :
        RobotState) g ppos).1 =
      ({ id := s.id,
         position := scout.path.getD (scout.path.length - 1 - rest.length)
           s.position,
         orientation := o',
         phase := s.phase,
         scout_depth_n := s.scout_depth_n * 2,
         boundary_scout := some
           { tracing_direction := scout.tracing_direction,
             steps_taken := scout.steps_taken,
             steps_taken_this_scouting_mission := 0,
             returning := false,
             path := [scout.path.getD (scout.path.length - 1 - rest.length)
               s.position],
             first_move := true,
             initial_scouting_direction := scout.initial_scouting_direction,
             total_rotation_steps := scout.total_rotation_steps } } :
        RobotState) := by
    rw [ebs_of_returning _ g ppos
      { tracing_direction := scout.tracing_direction,
        steps_taken := scout.steps_taken,
        steps_taken_this_scouting_mission := rest.length,
        returning := true,
        path := scout.path,
        first_move := scout.first_move,
        initial_scouting_direction := scout.initial_scouting_direction,
        total_rotation_steps := scout.total_rotation_steps } rfl rfl]
    unfold handle_return_journey
    simp only []
    rw [if_neg (by omega)]
  refine ⟨?_, ?_, ?_, ?_, ?_⟩
  · rw [hk]
    exact hgd
  · rw [hF1, hk, hstep]
    exact hgd
  · rw [hF1, hk, hstep]
    simp only [Option.map_some']
    rw [hgd]
  · rw [hF1, hk, hstep]
    rfl
  · rw [hF1, hk, hstep]
    rfl

/-- C6 witness: a two-cell leg path `[(0,0), (1,0)]` with the agent at
`(1,0)`: one return step reaches the leg start `(0,0)`, and the next step
resets the leg there. -/
theorem c6_return_journey_symmetry_witness :
    ((fun st => (execute_boundary_scouting st
        ⟨2, 1, [CellState.Empty, CellState.Empty]⟩ ⟨5, 5⟩).1)^[1]
      ⟨0, ⟨1, 0⟩, Orientation.east, RobotPhase.BoundaryScouting, 3,
        some ⟨-1, 1, 0, true, [⟨0, 0⟩, ⟨1, 0⟩], false, none, 0⟩⟩).position =
      (⟨0, 0⟩ : Point) ∧
    ((fun st => (execute_boundary_scouting st
        ⟨2, 1, [CellState.Empty, CellState.Empty]⟩ ⟨5, 5⟩).1)^[1 + 1]
      ⟨0, ⟨1, 0⟩, Orientation.east, RobotPhase.BoundaryScouting, 3,
        some ⟨-1, 1, 0, true, [⟨0, 0⟩, ⟨1, 0⟩], false, none, 0⟩⟩).position =
      (⟨0, 0⟩ : Point) ∧
    (((fun st => (execute_boundary_scouting st
        ⟨2, 1, [CellState.Empty, CellState.Empty]⟩ ⟨5, 5⟩).1)^[1 + 1]
      ⟨0, ⟨1, 0⟩, Orientation.east, RobotPhase.BoundaryScouting, 3,
        some ⟨-1, 1, 0, true, [⟨0, 0⟩, ⟨1, 0⟩], false, none, 0⟩⟩).boundary_scout.map
      (fun sc => sc.path)) = some [(⟨0, 0⟩ : Point)] ∧
    (((fun st => (execute_boundary_scouting st
        ⟨2, 1, [CellState.Empty, CellState.Empty]⟩ ⟨5, 5⟩).1)^[1 + 1]
      ⟨0, ⟨1, 0⟩, Orientation.east, RobotPhase.BoundaryScouting, 3,
        some ⟨-1, 1, 0, true, [⟨0, 0⟩, ⟨1, 0⟩], false, none, 0⟩⟩).boundary_scout.map
      (fun sc => sc.first_move)) = some true ∧
    (((fun st => (execute_boundary_scouting st
        ⟨2, 1, [CellState.Empty, CellState.Empty]⟩ ⟨5, 5⟩).1)^[1 + 1]
      ⟨0, ⟨1, 0⟩, Orientation.east, RobotPhase.BoundaryScouting, 3,
        some ⟨-1, 1, 0, true, [⟨0, 0⟩, ⟨1, 0⟩], false, none, 0⟩⟩).boundary_scout.map
      (fun sc => sc.returning)) = some false :=
  c6_return_journey_symmetry ⟨2, 1, [CellState.Empty, CellState.Empty]⟩ ⟨5, 5⟩
    ⟨0, ⟨1, 0⟩, Orientation.east, RobotPhase.BoundaryScouting, 3,
      some ⟨-1, 1, 0, true, [⟨0, 0⟩, ⟨1, 0⟩], false, none, 0⟩⟩
    ⟨-1, 1, 0, true, [⟨0, 0⟩, ⟨1, 0⟩], false, none, 0⟩ ⟨0, 0⟩ [⟨1, 0⟩]
    rfl rfl rfl rfl rfl

theorem c1_boundary_analyzer_rotation (o0 o1 : Option Int) :
    (analyze_boundary_by_rotation o0 o1 = BoundaryAnalysisResult.ExteriorWall ↔
      ∃ r0 r1, o0 = some r0 ∧ o1 = some r1 ∧ r0 - r1 = -4) ∧
    (analyze_boundary_by_rotation o0 o1 = BoundaryAnalysisResult.Island ↔
      ∃ r0 r1, o0 = some r0 ∧ o1 = some r1 ∧ r0 - r1 = 4) ∧
    (analyze_boundary_by_rotation o0 o1 = BoundaryAnalysisResult.Incomplete ↔
      ¬ ∃ r0 r1, o0 = some r0 ∧ o1 = some r1 ∧ (r0 - r1 = -4 ∨ r0 - r1 = 4)) := by
  match o0, o1 with
  | none, none => simp [analyze_boundary_by_rotation]
  | none, some r1 => simp [analyze_boundary_by_rotation]
  | some r0, none => simp [analyze_boundary_by_rotation]
  | some r0, some r1 =>
      simp only [analyze_boundary_by_rotation, EXPECTED_ROTATION_DIFFERENCE]
      by_cases h4 : r0 - r1 = -4
      · simp [h4]
      · by_cases h4' : r0 - r1 = 4 <;> simp [h4, h4']

/-- C2: for every position, cardinal orientation with forward vector `(dx,dy)`
and map, `wall_follow_step` with chirality `-1` returns the first in-bounds
non-obstacle cell among the offsets Right `(-dy,dx)`, Forward `(dx,dy)`,
Left `(dy,-dx)`, Back `(-dx,-dy)` in that order; with chirality `+1` it uses
the order Left, Forward, Right, Back; and it returns no move exactly when all
four candidates are blocked or out of bounds. -/
theorem c2_wall_follow_step_priorities (pos : Point) (o : Orientation) (m : GridMap) :
    (wall_follow_step pos o m (-1) =
      (candidates pos [(-(get_direction_vector o).2, (get_direction_vector o).1),
        ((get_direction_vector o).1, (get_direction_vector o).2),
        ((get_direction_vector o).2, -(get_direction_vector o).1),
        (-(get_direction_vector o).1, -(get_direction_vector o).2)]).find? (candidateOk m)) ∧
    (wall_follow_step pos o m 1 =
      (candidates pos [((get_direction_vector o).2, -(get_direction_vector o).1),
        ((get_direction_vector o).1, (get_direction_vector o).2),
        (-(get_direction_vector o).2, (get_direction_vector o).1),
        (-(get_direction_vector o).1, -(get_direction_vector o).2)]).find? (candidateOk m)) ∧
    (∀ c : Int, c = -1 ∨ c = 1 →
      (wall_follow_step pos o m c = none ↔
        ∀ p ∈ candidates pos [(-(get_direction_vector o).2, (get_direction_vector o).1),
          ((get_direction_vector o).1, (get_direction_vector o).2),
          ((get_direction_vector o).2, -(get_direction_vector o).1),
          (-(get_direction_vector o).1, -(get_direction_vector o).2)],
          ¬ candidateOk m p = true)) := by
  have hL : wall_follow_step pos o m (-1) =
      (candidates pos [(-(get_direction_vector o).2, (get_direction_vector o).1),
        ((get_direction_vector o).1, (get_direction_vector o).2),
        ((get_direction_vector o).2, -(get_direction_vector o).1),
        (-(get_direction_vector o).1, -(get_direction_vector o).2)]).find? (candidateOk m) := by
    show try_priorities pos m (if (-1 : Int) = LEFT_HAND_RULE then _ else _) = _
    rw [if_pos (show (-1 : Int) = LEFT_HAND_RULE from rfl), try_priorities_eq_find]
  have hR : wall_follow_step pos o m 1 =
      (candidates pos [((get_direction_vector o).2, -(get_direction_vector o).1),
        ((get_direction_vector o).1, (get_direction_vector o).2),
        (-(get_direction_vector o).2, (get_direction_vector o).1),
        (-(get_direction_vector o).1, -(get_direction_vector o).2)]).find? (candidateOk m) := by
    show try_priorities pos m (if (1 : Int) = LEFT_HAND_RULE then _ else _) = _
    rw [if_neg (by norm_num [LEFT_HAND_RULE]), try_priorities_eq_find]
  refine ⟨hL, hR, ?_⟩
  rintro c (rfl | rfl)
  · rw [hL, List.find?_eq_none]
  · rw [hR, List.find?_eq_none]
    constructor
    · intro h p hp
      apply h
      simp only [candidates, List.map_cons, List.map_nil, List.mem_cons,
        List.mem_singleton, List.not_mem_nil] at hp ⊢
      tauto
    · intro h p hp
      apply h
      simp only [candidates, List.map_cons, List.map_nil, List.mem_cons,
        List.mem_singleton, List.not_mem_nil] at hp ⊢
      tauto

/-- C3: on the first move after hitting the wall, with `c` the cross product of
the forward vector `(dx,dy)` with the vector to the partner
(`c = dx*ty - dy*tx`), the step scans Left, Forward, Right, Back when `c > 0`
and Right, Forward, Left, Back when `c ≤ 0`, returning the first in-bounds
non-obstacle cell. -/
theorem c3_first_move_priorities (pos : Point) (o : Orientation) (m : GridMap)
    (ppos : Point) :
    wall_follow_step_first_move pos o m ppos =
      (candidates pos
        (if (get_direction_vector o).1 * (ppos.y - pos.y) -
            (get_direction_vector o).2 * (ppos.x - pos.x) > 0 then
          [((get_direction_vector o).2, -(get_direction_vector o).1),
           ((get_direction_vector o).1, (get_direction_vector o).2),
           (-(get_direction_vector o).2, (get_direction_vector o).1),
           (-(get_direction_vector o).1, -(get_direction_vector o).2)]
        else
          [(-(get_direction_vector o).2, (get_direction_vector o).1),
           ((get_direction_vector o).1, (get_direction_vector o).2),
           ((get_direction_vector o).2, -(get_direction_vector o).1),
           (-(get_direction_vector o).1, -(get_direction_vector o).2)])).find?
        (candidateOk m) := by
  show try_priorities pos m (if _ > (0 : Int) then _ else _) = _
  by_cases h : (get_direction_vector o).1 * (ppos.y - pos.y) -
      (get_direction_vector o).2 * (ppos.x - pos.x) > 0
  · rw [if_pos h, try_priorities_eq_find]
  · rw [if_neg h, try_priorities_eq_find]


theorem c8_merge_rule (a b : GridMap) (hlen : a.cells.length = b.cells.length) :
    (∃ r, merge_map a b = some r ∧
      ∀ i, i < a.cells.length →
        r.cells.getD i CellState.Unexplored =
          if b.cells.getD i CellState.Unexplored ≠ CellState.Unexplored
          then b.cells.getD i CellState.Unexplored
          else a.cells.getD i CellState.Unexplored) ∧
    merge_map ⟨2, 1, [CellState.Empty, CellState.Unexplored]⟩
        ⟨2, 1, [CellState.Unexplored, CellState.Obstacle]⟩ =
      some ⟨2, 1, [CellState.Empty, CellState.Obstacle]⟩ ∧
    merge_map ⟨2, 1, [CellState.Unexplored, CellState.Obstacle]⟩
        ⟨2, 1, [CellState.Empty, CellState.Unexplored]⟩ =
      some ⟨2, 1, [CellState.Empty, CellState.Obstacle]⟩ := by
  refine ⟨?_, by decide, by decide⟩
  have hsome : (mergeCellsAux a.cells b.cells 0).isSome = true := by
    rw [mergeCellsAux_isSome]
    intro t ht _
    omega
  obtain ⟨cs, hcs⟩ := Option.isSome_iff_exists.mp hsome
  refine ⟨{ a with cells := cs }, ?_, ?_⟩
  · simp [merge_map, hcs]
  · intro i hi
    have := mergeCellsAux_getD b.cells a.cells cs 0 hcs i CellState.Unexplored
    simp only [Nat.zero_le, Nat.sub_zero, true_and] at this
    rw [this]
    by_cases hb : b.cells.getD i CellState.Unexplored ≠ CellState.Unexplored
    · rw [if_pos ⟨by omega, hb⟩, if_pos hb]
    · rw [if_neg (by tauto), if_neg hb]

/-- C10 counterexample: merging is also panic-free when the partner map is
strictly larger but all of its out-of-range cells are `Unexplored` (no write
is attempted), so "panic-free exactly when the partner has at most as many
cells" fails: here the partner has 1 cell, the receiver 0, yet no panic. -/
theorem c10_counterexample :
    (merge_map ⟨0, 0, []⟩ ⟨1, 1, [CellState.Unexplored]⟩).isSome = true ∧
      ¬ ((⟨1, 1, [CellState.Unexplored]⟩ : GridMap).cells.length ≤
          (⟨0, 0, []⟩ : GridMap).cells.length) := by
  decide

/-- C10 (amended): merging is panic-free iff every non-`Unexplored` partner
cell has its index inside the receiver's cell vector — in particular it is
panic-free whenever the partner has at most as many cells as the receiver —
and a panic-free merge never changes the receiver's width, height, or cell
count. -/
theorem c10_merge_panic_freedom (a b : GridMap) :
    ((merge_map a b).isSome = true ↔
      ∀ t, t < b.cells.length →
        b.cells.getD t CellState.Unexplored ≠ CellState.Unexplored →
        t < a.cells.length) ∧
    (b.cells.length ≤ a.cells.length →
      ∃ r, merge_map a b = some r ∧ r.width = a.width ∧ r.height = a.height ∧
        r.cells.length = a.cells.length) := by
  constructor
  · rw [merge_map, Option.isSome_map', mergeCellsAux_isSome]
    constructor
    · intro h t ht hne
      have := h t ht hne
      omega
    · intro h t ht hne
      have := h t ht hne
      omega
  · intro hle
    have hsome : (mergeCellsAux a.cells b.cells 0).isSome = true := by
      rw [mergeCellsAux_isSome]
      intro t ht _
      omega
    obtain ⟨cs, hcs⟩ := Option.isSome_iff_exists.mp hsome
    exact ⟨{ a with cells := cs }, by simp [merge_map, hcs], rfl, rfl,
      mergeCellsAux_length b.cells a.cells cs 0 hcs⟩

/-- C8 witness: the general merge rule instantiated at the two-cell maps of
the merge-determinism scenario. -/
theorem c8_merge_rule_witness :
    (∃ r, merge_map ⟨2, 1, [CellState.Empty, CellState.Unexplored]⟩
        ⟨2, 1, [CellState.Unexplored, CellState.Obstacle]⟩ = some r ∧
      ∀ i, i < (⟨2, 1, [CellState.Empty, CellState.Unexplored]⟩ : GridMap).cells.length →
        r.cells.getD i CellState.Unexplored =
          if (⟨2, 1, [CellState.Unexplored, CellState.Obstacle]⟩ : GridMap).cells.getD i
              CellState.Unexplored ≠ CellState.Unexplored
          then (⟨2, 1, [CellState.Unexplored, CellState.Obstacle]⟩ : GridMap).cells.getD i
              CellState.Unexplored
          else (⟨2, 1, [CellState.Empty, CellState.Unexplored]⟩ : GridMap).cells.getD i
              CellState.Unexplored) ∧
    merge_map ⟨2, 1, [CellState.Empty, CellState.Unexplored]⟩
        ⟨2, 1, [CellState.Unexplored, CellState.Obstacle]⟩ =
      some ⟨2, 1, [CellState.Empty, CellState.Obstacle]⟩ ∧
    merge_map ⟨2, 1, [CellState.Unexplored, CellState.Obstacle]⟩
        ⟨2, 1, [CellState.Empty, CellState.Unexplored]⟩ =
      some ⟨2, 1, [CellState.Empty, CellState.Obstacle]⟩ :=
  c8_merge_rule ⟨2, 1, [CellState.Empty, CellState.Unexplored]⟩
    ⟨2, 1, [CellState.Unexplored, CellState.Obstacle]⟩ (by decide)

/-- C10 witness: panic freedom and size preservation at a concrete pair of
maps with the partner no larger than the receiver. -/
theorem c10_merge_panic_freedom_witness :
    ((merge_map ⟨2, 1, [CellState.Empty, CellState.Unexplored]⟩
        ⟨1, 1, [CellState.Obstacle]⟩).isSome = true ↔
      ∀ t, t < (⟨1, 1, [CellState.Obstacle]⟩ : GridMap).cells.length →
        (⟨1, 1, [CellState.Obstacle]⟩ : GridMap).cells.getD t CellState.Unexplored ≠
          CellState.Unexplored →
        t < (⟨2, 1, [CellState.Empty, CellState.Unexplored]⟩ : GridMap).cells.length) ∧
    ((⟨1, 1, [CellState.Obstacle]⟩ : GridMap).cells.length ≤
        (⟨2, 1, [CellState.Empty, CellState.Unexplored]⟩ : GridMap).cells.length →
      ∃ r, merge_map ⟨2, 1, [CellState.Empty, CellState.Unexplored]⟩
          ⟨1, 1, [CellState.Obstacle]⟩ = some r ∧
        r.width = (⟨2, 1, [CellState.Empty, CellState.Unexplored]⟩ : GridMap).width ∧
        r.height = (⟨2, 1, [CellState.Empty, CellState.Unexplored]⟩ : GridMap).height ∧
        r.cells.length =
          (⟨2, 1, [CellState.Empty, CellState.Unexplored]⟩ : GridMap).cells.length) :=
  c10_merge_panic_freedom ⟨2, 1, [CellState.Empty, CellState.Unexplored]⟩
    ⟨1, 1, [CellState.Obstacle]⟩

theorem c9_map_loader (lines : List (List Char)) :
    loadOk (load_map_from_file []) = false ∧
    ((∃ l ∈ lines, l.length ≠ (lines.headD []).length) →
      loadOk (load_map_from_file lines) = false) ∧
    ((∃ l ∈ lines, ∃ c ∈ l, validMapChar c = false) →
      loadOk (load_map_from_file lines) = false) ∧
    (lines ≠ [] → (∀ l ∈ lines, l.length = (lines.headD []).length) →
      (∀ l ∈ lines, ∀ c ∈ l, validMapChar c = true) →
      load_map_from_file lines =
        Except.ok ⟨(lines.headD []).length, lines.length,
          lines.join.map charCell⟩) := by
  refine ⟨rfl, ?_, ?_, ?_⟩
  · rintro ⟨l, hl, hlen⟩
    have hne : lines ≠ [] := by rintro rfl; simp at hl
    simp only [load_map_from_file, List.isEmpty_eq_true, hne, if_false]
    rw [if_pos]
    · rfl
    · simp only [List.all_eq_true, decide_eq_true_eq, not_forall]
      exact ⟨l, hl, hlen⟩
  · rintro ⟨l, hl, c, hc, hcv⟩
    have hne : lines ≠ [] := by rintro rfl; simp at hl
    simp only [load_map_from_file, List.isEmpty_eq_true, hne, if_false]
    by_cases hall : ¬ lines.all (fun l => l.length = (lines.headD []).length)
    · rw [if_pos hall]
      rfl
    · rw [if_neg hall]
      obtain ⟨msg, hmsg⟩ := cellsOfChars_invalid lines.join
        ⟨c, List.mem_join.mpr ⟨l, hl, hc⟩, hcv⟩
      simp [hmsg, loadOk, Except.map]
  · intro hne hrows hchars
    simp only [load_map_from_file, List.isEmpty_eq_true, hne, if_false]
    rw [if_neg (by
      simp only [List.all_eq_true, decide_eq_true_eq, not_not]
      exact hrows)]
    rw [cellsOfChars_all_valid lines.join
      (fun c hc => by
        obtain ⟨l, hl, hcl⟩ := List.mem_join.mp hc
        exact hchars l hl c hcl)]
    rfl

/-- C9 witness: the loader at a concrete 2x2 map with all four accepted
characters, plus concrete failing inputs for each error case. -/
theorem c9_map_loader_witness :
    loadOk (load_map_from_file []) = false ∧
    loadOk (load_map_from_file [['#', '.'], ['#']]) = false ∧
    loadOk (load_map_from_file [['#', 'x']]) = false ∧
    load_map_from_file [['#', '.'], [' ', '?']] =
      Except.ok ⟨2, 2, [CellState.Obstacle, CellState.Empty,
        CellState.Unexplored, CellState.Unexplored]⟩ := by
  refine ⟨(c9_map_loader []).1, ?_, ?_, ?_⟩
  · exact (c9_map_loader [['#', '.'], ['#']]).2.1 (by decide)
  · exact (c9_map_loader [['#', 'x']]).2.2.1 (by decide)
  · have := (c9_map_loader [['#', '.'], [' ', '?']]).2.2.2 (by decide)
      (by decide) (by decide)
    simpa using this

/-- C7 counterexample: the sensing operation `update_local_map` copies the
ground-truth cell unconditionally, so when the ground-truth cell is
`Unexplored` it sets a private-map cell that held `Empty` back to
`Unexplored`; the claim that no private-map cell is ever set to `Unexplored`
by the map-writing operations is therefore false. -/
theorem c7_counterexample :
    (⟨1, 1, [CellState.Empty]⟩ : GridMap).cells.getD 0 CellState.Unexplored =
        CellState.Empty ∧
      (update_local_map ⟨1, 1, [CellState.Empty]⟩ ⟨0, 0⟩
          ⟨1, 1, [CellState.Unexplored]⟩).cells.getD 0 CellState.Unexplored =
        CellState.Unexplored := by
  decide

/-- C7 (amended): merging never sets a private-map cell to `Unexplored`; the
wall-find move step writes only `Empty` and never sets a cell to
`Unexplored`; and sensing never sets a cell to `Unexplored` provided the
ground-truth map contains no `Unexplored` cell (without that proviso sensing
can revert a known cell, as the counterexample shows). -/
theorem c7_map_monotonicity (a b r : GridMap) (m g : GridMap) (pos : Point)
    (i : Nat) :
    (merge_map a b = some r →
      r.cells.getD i CellState.Unexplored = CellState.Unexplored →
      a.cells.getD i CellState.Unexplored = CellState.Unexplored) ∧
    ((wall_find_execute pos m).2.1.cells.getD i CellState.Unexplored =
        CellState.Unexplored →
      m.cells.getD i CellState.Unexplored = CellState.Unexplored) ∧
    (CellState.Unexplored ∉ g.cells →
      (update_local_map m pos g).cells.getD i CellState.Unexplored =
        CellState.Unexplored →
      m.cells.getD i CellState.Unexplored = CellState.Unexplored) := by
  refine ⟨?_, ?_, ?_⟩
  · intro hmerge hr
    simp only [merge_map, Option.map_eq_some'] at hmerge
    obtain ⟨cs, hcs, hrw⟩ := hmerge
    have := mergeCellsAux_getD b.cells a.cells cs 0 hcs i CellState.Unexplored
    rw [← hrw] at hr
    simp only at hr
    rw [this] at hr
    by_cases hcond : 0 ≤ i ∧ i - 0 < b.cells.length ∧
        b.cells.getD (i - 0) CellState.Unexplored ≠ CellState.Unexplored
    · rw [if_pos hcond] at hr
      exact absurd hr hcond.2.2
    · rw [if_neg hcond] at hr
      exact hr
  · intro h
    unfold wall_find_execute at h
    by_cases hfront : (wallfind_sense_front pos m).2 = CellState.Obstacle
    · rw [if_pos hfront] at h
      exact h
    · rw [if_neg hfront] at h
      simp only at h
      set idx := (wallfind_sense_front pos m).1.y.toNat * m.width +
        (wallfind_sense_front pos m).1.x.toNat with hidx
      by_cases hlen : idx < m.cells.length
      · by_cases hi : i = idx
        · subst hi
          rw [getD_set_self _ _ _ _ hlen] at h
          cases h
        · rw [getD_set_ne _ _ _ _ _ (fun e => hi e.symm)] at h
          exact h
      · rw [List.set_eq_of_length_le (by omega)] at h
        exact h
  · intro hg h
    unfold update_local_map at h
    simp only at h
    exact foldl_sense_preserves_known m.width g hg _ m.cells i h

/-- C7 witness: the amended monotonicity facts at concrete one-cell maps. -/
theorem c7_map_monotonicity_witness :
    (⟨1, 1, [CellState.Unexplored]⟩ : GridMap).cells.getD 0
        CellState.Unexplored = CellState.Unexplored ∧
      (⟨1, 1, [CellState.Unexplored]⟩ : GridMap).cells.getD 0
          CellState.Unexplored = CellState.Unexplored ∧
        (⟨1, 1, [CellState.Unexplored]⟩ : GridMap).cells.getD 1
            CellState.Unexplored = CellState.Unexplored :=
  ⟨(c7_map_monotonicity ⟨1, 1, [CellState.Unexplored]⟩
      ⟨1, 1, [CellState.Unexplored]⟩ ⟨1, 1, [CellState.Unexplored]⟩
      ⟨1, 1, [CellState.Unexplored]⟩ ⟨1, 1, [CellState.Empty]⟩ ⟨0, 0⟩ 0).1
      (by decide) (by decide),
   (c7_map_monotonicity ⟨1, 1, [CellState.Unexplored]⟩
      ⟨1, 1, [CellState.Unexplored]⟩ ⟨1, 1, [CellState.Unexplored]⟩
      ⟨1, 1, [CellState.Unexplored]⟩ ⟨1, 1, [CellState.Empty]⟩ ⟨0, 0⟩ 0).2.1
      (by decide),
   (c7_map_monotonicity ⟨1, 1, [CellState.Unexplored]⟩
      ⟨1, 1, [CellState.Unexplored]⟩ ⟨1, 1, [CellState.Unexplored]⟩
      ⟨1, 1, [CellState.Unexplored]⟩ ⟨1, 1, [CellState.Empty]⟩ ⟨0, 0⟩ 1).2.2
      (by decide) (by decide)⟩

end MultiagentExplore
